import Mathlib

/-!
Shallow embedding of the report-synchronization core of aws-cost-exporter.

The Go sources embedded here are:
  pkg/fetcher (GetBillingPeriods, GetReportManifest, FetchReport, index),
  pkg/collector (Prefetch, UpdateReport) and the gatherer closure of
  newGatherer in cmd main.

External effects (S3 object retrieval, gzip, CSV streaming, sqlite) are
modelled as explicit data passed to the embedded functions: the remote side
is a function from keys to part contents, the sqlite records table is a list
of rows, and the marker files written next to the database are a list of
file names.  A Go panic (index out of range on a nil or short slice) is
modelled as a distinguished crash outcome, kept apart from a returned error.
Machine time instants are modelled as Nat (the Go zero time.Time is 0).
-/

set_option linter.unusedVariables false

deriving instance DecidableEq for Except

/-- Subset of state.Config used by the embedded functions. -/
structure Config where
  bucketName : String
  reportName : String
  repositoryPath : String
  databasePath : String
deriving DecidableEq

/-- In pkg/state, BillingPeriod is a defined string type; the code compares
periods with the string order and converts them with a plain string cast. -/
abbrev BillingPeriod := String

/-- The canonical string form of a period: the Go code uses the direct
string conversion of the BillingPeriod value. -/
def canonicalForm (p : BillingPeriod) : String := p

/-- Modelled from the spec: state.ParseBillingPeriod is in pkg/state, which is
not among the provided sources.  Per the spec (sections 3 and 4.1) a billing
period is a sortable string built from fixed-width date components, start and
end, as in 20240101-20240201; parsing validates the raw remote prefix and
fails with a malformed-period error otherwise.  On success the value is the
validated string itself. -/
def ParseBillingPeriod (raw : String) : Except String BillingPeriod :=
  let cs := raw.toList
  if (cs.length == 17 && (cs.take 8).all Char.isDigit
      && ((cs.drop 8).take 1 == ['-']) && (cs.drop 9).all Char.isDigit)
  then Except.ok raw
  else Except.error ("malformed billing period: " ++ raw)

/-- fetcher.ReportManifest, decoded from the manifest JSON object. -/
structure ReportManifest where
  assemblyId : String
  compression : String
  contentType : String
  billingPeriodStart : String
  billingPeriodEnd : String
  bucket : String
  reportKeys : List String
deriving DecidableEq

/-- One row of the sqlite records table, in the column layout of the insert
statement of fetcher.FetchReport. -/
structure Row where
  billStart : String
  billEnd : String
  productName : String
  operation : String
  unblendedCost : String
  usageAccountId : String
  lineItemType : String
  usageType : String
  usageAmount : String
  pricingUnit : String
  currencyCode : String
deriving DecidableEq

/-- The mutable on-disk state FetchReport touches: the records table of the
sqlite database and the per-part marker files it creates under the
repository path. -/
structure FSState where
  db : List Row
  files : List String
deriving DecidableEq

/-- state.State: the known periods and the per-period last-modified map. -/
structure ExporterState where
  periods : List BillingPeriod
  reportLastModified : List (String × Nat)
deriving DecidableEq

/-- Lookup in the association-list model of the Go map. -/
def mapLookup (m : List (String × Nat)) (k : String) : Option Nat :=
  match m with
  | [] => none
  | (k2, v) :: rest => if k2 = k then some v else mapLookup rest k

/-- Map write: the new binding shadows any previous one. -/
def mapInsert (m : List (String × Nat)) (k : String) (v : Nat) : List (String × Nat) :=
  (k, v) :: m

/-- strings.TrimPrefix, on the character-list view of the strings. -/
def dropLead (s pre : String) : String :=
  if pre.data.isPrefixOf s.data then String.mk (s.data.drop pre.data.length) else s

/-- strings.TrimSuffix, on the character-list view of the strings. -/
def dropTrail (s suf : String) : String :=
  if suf.data.isSuffixOf s.data
  then String.mk (s.data.take (s.data.length - suf.data.length)) else s

def indexAux (item : String) : List String → Int → Int
  | [], _ => -1
  | x :: xs, i => if x = item then i else indexAux item xs (i + 1)

/-- fetcher.index: first position of item in slice, -1 when absent. -/
def index (slice : List String) (item : String) : Int := indexAux item slice 0

/-- Go slice indexing record[i]: none models the runtime panic raised when
i is negative (the -1 of index) or out of range (nil or short record). -/
def goIndex (record : List String) (i : Int) : Option String :=
  if 0 ≤ i then record.get? i.toNat else none

/-- The eleven column positions FetchReport resolves from the header row. -/
structure Cols where
  billStart : Int
  billEnd : Int
  productName : Int
  operation : Int
  lineItemType : Int
  usageType : Int
  usageAmount : Int
  pricingUnit : Int
  currencyCode : Int
  unblendedCost : Int
  usageAccountId : Int
deriving DecidableEq

/-- Header-name to index resolution of FetchReport (no -1 check is made). -/
def mkCols (header : List String) : Cols where
  billStart := index header "bill/BillingPeriodStartDate"
  billEnd := index header "bill/BillingPeriodEndDate"
  productName := index header "product/ProductName"
  operation := index header "lineItem/Operation"
  lineItemType := index header "lineItem/LineItemType"
  usageType := index header "lineItem/UsageType"
  usageAmount := index header "lineItem/UsageAmount"
  pricingUnit := index header "pricing/unit"
  currencyCode := index header "lineItem/CurrencyCode"
  unblendedCost := index header "lineItem/UnblendedCost"
  usageAccountId := index header "lineItem/UsageAccountId"

/-- Building one insert from a CSV record: the record is indexed at each
resolved column (the debug log reads usageAccountId first, then the insert
arguments); any out-of-range access is the Go panic, modelled by none. -/
def mkRow (cols : Cols) (rec : List String) : Option Row := do
  let uai ← goIndex rec cols.usageAccountId
  let bs ← goIndex rec cols.billStart
  let be ← goIndex rec cols.billEnd
  let pn ← goIndex rec cols.productName
  let op ← goIndex rec cols.operation
  let uc ← goIndex rec cols.unblendedCost
  let lit ← goIndex rec cols.lineItemType
  let ut ← goIndex rec cols.usageType
  let ua ← goIndex rec cols.usageAmount
  let pu ← goIndex rec cols.pricingUnit
  let cc ← goIndex rec cols.currencyCode
  pure { billStart := bs, billEnd := be, productName := pn, operation := op,
         unblendedCost := uc, usageAccountId := uai, lineItemType := lit,
         usageType := ut, usageAmount := ua, pricingUnit := pu,
         currencyCode := cc }

/-- One result of csv.Reader.Read inside the row loop: a record, or a hard
read error (for which Go csv returns a nil record).  End of stream (io.EOF)
is the end of the list. -/
inductive ReadResult where
  | row (rec : List String)
  | readErr (e : String)
deriving DecidableEq

/-- Content of one report part as observed by FetchReport: the S3 get may
fail, the gzip header may be invalid, or a stream of CSV read results is
delivered (the first of which is the header row). -/
inductive PartData where
  | transferError (e : String)
  | gzipError (e : String)
  | content (reads : List ReadResult)
deriving DecidableEq

/-- The row loop of FetchReport over one part, accumulating the rows staged
in the open transaction.  A read error leaves record nil and the subsequent
record indexing panics; a short or column-less record likewise panics.
none models that crash (the transaction is rolled back, nothing of this part
is committed). -/
def runRows (cols : Cols) : List ReadResult → Option (List Row)
  | [] => some []
  | ReadResult.readErr _ :: _ => none
  | ReadResult.row rec :: rest =>
    match mkRow cols rec with
    | none => none
    | some r =>
      match runRows cols rest with
      | none => none
      | some rs => some (r :: rs)

/-- Outcome of processing a single report part. -/
inductive PartStep where
  | skip
  | committed (rows : List Row)
  | failed (e : String)
  | crashed
deriving DecidableEq

/-- One iteration of the part loop of FetchReport: skip when the marker file
already exists; otherwise download, decompress, read the header, resolve
columns, run the row loop inside a transaction, and commit. -/
def fetchPartStep (remote : String → PartData) (files : List String)
    (file : String) (key : String) : PartStep :=
  if file ∈ files then PartStep.skip
  else match remote key with
    | PartData.transferError e => PartStep.failed e
    | PartData.gzipError e => PartStep.failed e
    | PartData.content [] => PartStep.failed "EOF"
    | PartData.content (ReadResult.readErr e :: _) => PartStep.failed e
    | PartData.content (ReadResult.row header :: reads) =>
      match runRows (mkCols header) reads with
      | none => PartStep.crashed
      | some rows => PartStep.committed rows

/-- The per-part file name FetchReport builds under repositoryPath/data. -/
def reportFileName (config : Config) (dayStr assemblyId : String) (i : Nat) : String :=
  config.repositoryPath ++ "/data/" ++ dayStr ++ "-" ++ assemblyId ++ "-"
    ++ toString i ++ ".csv"

/-- Go for-range with index, starting at n. -/
def goRange {α : Type} : Nat → List α → List (Nat × α)
  | _, [] => []
  | n, x :: xs => (n, x) :: goRange (n + 1) xs

/-- Result of FetchReport: normal return, returned error, or process crash,
each carrying the on-disk state at that point (committed transactions and
created marker files only; a rolled-back transaction leaves no trace). -/
inductive FetchOutcome where
  | ok (s : FSState)
  | err (e : String) (s : FSState)
  | crash (s : FSState)
deriving DecidableEq

/-- Go time.Parse with the fixed layout 20060102T150405Z followed by
Format(20060102): validates the manifest start instant and yields its
eight-digit day component. -/
def parsePeriodStart (s : String) : Except String String :=
  let cs := s.toList
  if (cs.length == 16 && (cs.take 8).all Char.isDigit
      && ((cs.drop 8).take 1 == ['T'])
      && ((cs.drop 9).take 6).all Char.isDigit && (cs.drop 15 == ['Z']))
  then Except.ok (String.mk (cs.take 8))
  else Except.error ("cannot parse time: " ++ s)

/-- The part loop of FetchReport.  Each part that is not skipped is ingested
inside its own transaction, committed at the end of that part, and its
marker file is created; a failed part returns with the store as committed so
far, a crashed part likewise (its open transaction is rolled back). -/
def fetchLoop (config : Config) (remote : String → PartData)
    (dayStr assemblyId : String) : List (Nat × String) → FSState → FetchOutcome
  | [], s => FetchOutcome.ok s
  | (i, key) :: rest, s =>
    let file := reportFileName config dayStr assemblyId i
    match fetchPartStep remote s.files file key with
    | PartStep.skip => fetchLoop config remote dayStr assemblyId rest s
    | PartStep.committed rows =>
      fetchLoop config remote dayStr assemblyId rest
        { db := s.db ++ rows, files := s.files ++ [file] }
    | PartStep.failed e => FetchOutcome.err e s
    | PartStep.crashed => FetchOutcome.crash s

/-- fetcher.FetchReport of pkg/fetcher (the transactional variant): parse the
manifest billing period start, then ingest each report key in listed order. -/
def FetchReport (config : Config) (remote : String → PartData)
    (manifest : ReportManifest) (s : FSState) : FetchOutcome :=
  match parsePeriodStart manifest.billingPeriodStart with
  | Except.error e => FetchOutcome.err e s
  | Except.ok dayStr =>
    fetchLoop config remote dayStr manifest.assemblyId
      (goRange 0 manifest.reportKeys) s

/-- The complete committed row block of a part, when that part would commit:
header resolved from the first read, all remaining reads inserted. -/
def partBlock (remote : String → PartData) (key : String) : Option (List Row) :=
  match remote key with
  | PartData.content (ReadResult.row header :: reads) => runRows (mkCols header) reads
  | _ => none

/-- Result of the S3 GetObject call of GetReportManifest: the NotModified
sentinel, another API or transfer error, or the object with its modification
instant.  The body is abstracted to the outcome of the JSON decode the code
runs on it. -/
inductive GetObjectResult where
  | notModified
  | transferError (e : String)
  | ok (lastModified : Nat) (body : Except String ReportManifest)

/-- Modelled from the spec: the object-retrieval capability of section 6,
a get conditioned on only-if-modified-since.  When the modification instant
of the remote object is not newer than the cursor, the NotModified sentinel
is returned and no content is transferred; otherwise the content and its
modification instant are returned. -/
def s3GetObjectConditional (objLastModified : Nat)
    (body : Except String ReportManifest) (ifModifiedSince : Nat) : GetObjectResult :=
  if objLastModified ≤ ifModifiedSince then GetObjectResult.notModified
  else GetObjectResult.ok objLastModified body

/-- fetcher.GetReportManifest after the client call: on NotModified return
no manifest and leave the last-modified cursor untouched; on content, first
overwrite the cursor with the modification instant of the object, then
decode and validate the manifest (content type, bucket, non-empty part
list).  Returns the decode or validation error, or the manifest, paired with
the value the lastModified pointer holds afterwards. -/
def GetReportManifest (config : Config) (resp : GetObjectResult)
    (lastModified : Nat) : Except String (Option ReportManifest) × Nat :=
  match resp with
  | GetObjectResult.notModified => (Except.ok none, lastModified)
  | GetObjectResult.transferError e => (Except.error e, lastModified)
  | GetObjectResult.ok objLM body =>
    match body with
    | Except.error e => (Except.error e, objLM)
    | Except.ok manifest =>
      if manifest.contentType ≠ "text/csv" then
        (Except.error ("report manifest contains unknown content type: "
          ++ manifest.contentType), objLM)
      else if manifest.bucket ≠ config.bucketName then
        (Except.error ("report manifest contains unexpected bucket name: "
          ++ manifest.bucket), objLM)
      else if manifest.reportKeys.isEmpty then
        (Except.error "report manifest contains no report keys", objLM)
      else (Except.ok (some manifest), objLM)

/-- Modelled from the spec: fetcher.ResetSqlite is called by UpdateReport
but is not among the provided sources.  Per the spec (section 3, Record
lifecycle) stored records are fully replaced on a changed manifest via a
clear step before the insert; ResetSqlite performs that clear of the records
table.  It does not touch the marker files. -/
def ResetSqlite (s : FSState) : FSState := { s with db := [] }

/-- The remote side seen by one UpdateReport call: the manifest object of a
period (its modification instant and decoded content) and the report parts
by key. -/
structure RemoteEnv where
  manifestObj : String → Nat × Except String ReportManifest
  parts : String → PartData

/-- Result of collector.UpdateReport: the updated flag with the new states,
a returned error, or a crash propagated from FetchReport. -/
inductive UpdateResult where
  | done (updated : Bool) (st : ExporterState) (fs : FSState)
  | failed (e : String) (st : ExporterState) (fs : FSState)
  | crashed (st : ExporterState) (fs : FSState)
deriving DecidableEq

/-- collector.UpdateReport: read the stored watermark (zero when absent),
conditionally fetch the manifest, and when it changed reset the store, fetch
the report, and only then write the new watermark into the state map. -/
def UpdateReport (config : Config) (env : RemoteEnv) (st : ExporterState)
    (fs : FSState) (period : String) : UpdateResult :=
  let w := (mapLookup st.reportLastModified period).getD 0
  let om := env.manifestObj period
  match GetReportManifest config (s3GetObjectConditional om.1 om.2 w) w with
  | (Except.error e, _) => UpdateResult.failed e st fs
  | (Except.ok none, _) => UpdateResult.done false st fs
  | (Except.ok (some manifest), newLM) =>
    match FetchReport config env.parts manifest (ResetSqlite fs) with
    | FetchOutcome.ok fs2 =>
      UpdateResult.done true
        { st with reportLastModified := mapInsert st.reportLastModified period newLM }
        fs2
    | FetchOutcome.err e fs2 => UpdateResult.failed e st fs2
    | FetchOutcome.crash fs2 => UpdateResult.crashed st fs2

/-- Result of collector.Prefetch, instrumented with the list of periods for
which an UpdateReport call was attempted, in order. -/
inductive PrefetchResult where
  | ok (st : ExporterState) (fs : FSState) (attempted : List String)
  | err (e : String) (st : ExporterState) (fs : FSState) (attempted : List String)
  | crashed (st : ExporterState) (fs : FSState) (attempted : List String)
deriving DecidableEq

/-- The loop of collector.Prefetch over the indexed periods: a period is
updated when it has no cached watermark or is the last one; the first
failing update aborts the loop. -/
def prefetchLoop (config : Config) (env : RemoteEnv) (total : Nat) :
    List (Nat × String) → ExporterState → FSState → PrefetchResult
  | [], st, fs => PrefetchResult.ok st fs []
  | (i, p) :: rest, st, fs =>
    let isLast := i == total - 1
    let isCached := (mapLookup st.reportLastModified p).isSome
    if !isCached || isLast then
      match UpdateReport config env st fs p with
      | UpdateResult.done _ st1 fs1 =>
        match prefetchLoop config env total rest st1 fs1 with
        | PrefetchResult.ok st2 fs2 att => PrefetchResult.ok st2 fs2 (p :: att)
        | PrefetchResult.err e st2 fs2 att => PrefetchResult.err e st2 fs2 (p :: att)
        | PrefetchResult.crashed st2 fs2 att => PrefetchResult.crashed st2 fs2 (p :: att)
      | UpdateResult.failed e st1 fs1 => PrefetchResult.err e st1 fs1 [p]
      | UpdateResult.crashed st1 fs1 => PrefetchResult.crashed st1 fs1 [p]
    else prefetchLoop config env total rest st fs

/-- collector.Prefetch: walk the resolved periods with their indices. -/
def Prefetch (config : Config) (env : RemoteEnv) (st : ExporterState)
    (fs : FSState) (periods : List String) : PrefetchResult :=
  prefetchLoop config env periods.length (goRange 0 periods) st fs

/-- Environment of one scrape of the gatherer closure: the remote side, the
listing for a period refresh, and the outcomes of the external
collaborators.  pastDue is modelled from the spec (section 4.1): the
BillingPeriod.IsPastDue method of pkg/state is not among the provided
sources; it is true once the end instant of the period has passed.  saveRes
and computeRes are modelled from the spec (sections 4.5 and 4.6): the
outcomes of state.Save and processor.Compute, whose sources are likewise
not provided. -/
structure ScrapeEnv where
  remote : RemoteEnv
  listing : Except String (List String)
  pastDue : String → Bool
  saveRes : Except String Unit
  computeRes : Except String Unit

/-- Observable actions of one scrape cycle, in execution order. -/
inductive ScrapeEvent where
  | listRemote
  | checkPeriod (p : String)
  | saveState
  | computeMetrics
deriving DecidableEq

/-- Result of one scrape cycle with its ordered event trace. -/
inductive ScrapeResult where
  | ok (st : ExporterState) (fs : FSState) (events : List ScrapeEvent)
  | err (e : String) (st : ExporterState) (fs : FSState) (events : List ScrapeEvent)
  | crashed (st : ExporterState) (fs : FSState) (events : List ScrapeEvent)
deriving DecidableEq

/-- The tail of the gatherer closure after the period to scrape is fixed:
update the report; on a change, save the state and then recompute the
metrics; on no change, do neither. -/
def scrapeSync (config : Config) (env : ScrapeEnv) (st : ExporterState)
    (fs : FSState) (period : String) (evs : List ScrapeEvent) : ScrapeResult :=
  match UpdateReport config env.remote st fs period with
  | UpdateResult.failed e st1 fs1 =>
    ScrapeResult.err e st1 fs1 (evs ++ [ScrapeEvent.checkPeriod period])
  | UpdateResult.crashed st1 fs1 =>
    ScrapeResult.crashed st1 fs1 (evs ++ [ScrapeEvent.checkPeriod period])
  | UpdateResult.done changed st1 fs1 =>
    if changed then
      match env.saveRes with
      | Except.error e =>
        ScrapeResult.err e st1 fs1
          (evs ++ [ScrapeEvent.checkPeriod period, ScrapeEvent.saveState])
      | Except.ok _ =>
        match env.computeRes with
        | Except.error e =>
          ScrapeResult.err e st1 fs1
            (evs ++ [ScrapeEvent.checkPeriod period, ScrapeEvent.saveState,
                     ScrapeEvent.computeMetrics])
        | Except.ok _ =>
          ScrapeResult.ok st1 fs1
            (evs ++ [ScrapeEvent.checkPeriod period, ScrapeEvent.saveState,
                     ScrapeEvent.computeMetrics])
    else ScrapeResult.ok st1 fs1 (evs ++ [ScrapeEvent.checkPeriod period])

/-- fetcher.GetBillingPeriods after the listing: parse every common prefix
(the first malformed one aborts), sort ascending, keep the last three. -/
def parsePeriods (pfx : String) : List String → Except String (List BillingPeriod)
  | [] => Except.ok []
  | p :: rest =>
    match ParseBillingPeriod (dropTrail (dropLead p pfx) "/") with
    | Except.error e => Except.error e
    | Except.ok period =>
      match parsePeriods pfx rest with
      | Except.error e => Except.error e
      | Except.ok ps => Except.ok (period :: ps)

/-- The numeric value of a character, for the lexicographic string order. -/
def chVal (c : Char) : Nat := c.val.toNat

/-- Lexicographic strict order on character lists, the Go string order. -/
def strLtb : List Char → List Char → Bool
  | [], [] => false
  | [], _ :: _ => true
  | _ :: _, [] => false
  | a :: as, b :: bs =>
    if chVal a < chVal b then true
    else if chVal b < chVal a then false
    else strLtb as bs

/-- The reflexive closure: a is at most b when b is not strictly below a. -/
def strLeb (a b : String) : Bool := !(strLtb b.data a.data)

/-- sort.Sort with the ascending Less of SortRecentFirst: an ascending
comparison sort on the period strings. -/
def sortPeriods (ps : List BillingPeriod) : List BillingPeriod :=
  List.insertionSort (fun a b => strLeb a b = true) ps

/-- fetcher.GetBillingPeriods over the outcome of the paginated listing. -/
def GetBillingPeriods (config : Config)
    (listing : Except String (List String)) : Except String (List BillingPeriod) :=
  match listing with
  | Except.error e => Except.error e
  | Except.ok raws =>
    match parsePeriods ("/" ++ config.reportName ++ "/") raws with
    | Except.error e => Except.error e
    | Except.ok periods =>
      let sorted := sortPeriods periods
      if sorted.length > 3 then Except.ok (sorted.drop (sorted.length - 3))
      else Except.ok sorted

/-- The gatherer closure returned by newGatherer: with no known periods it
only gathers the registered metrics; otherwise it re-resolves the periods
when the most recent one is past due (crashing on an empty refreshed list,
as the Go indexing would), then runs the synchronization tail on the most
recent period. -/
def scrape (config : Config) (env : ScrapeEnv) (st : ExporterState)
    (fs : FSState) : ScrapeResult :=
  match st.periods.getLast? with
  | none => ScrapeResult.ok st fs []
  | some period0 =>
    if env.pastDue period0 then
      match GetBillingPeriods config env.listing with
      | Except.error e => ScrapeResult.err e st fs [ScrapeEvent.listRemote]
      | Except.ok ps =>
        match ps.getLast? with
        | none => ScrapeResult.crashed { st with periods := ps } fs [ScrapeEvent.listRemote]
        | some period =>
          scrapeSync config env { st with periods := ps } fs period [ScrapeEvent.listRemote]
    else scrapeSync config env st fs period0 []

/-! Concrete fixtures used by the witness and counterexample theorems. -/

/-- A concrete configuration. -/
def cfgC : Config :=
  { bucketName := "billing-bucket", reportName := "rep",
    repositoryPath := "/repo", databasePath := "/db.sqlite" }

/-- The full header row with all eleven required columns. -/
def hdrFull : List String :=
  ["bill/BillingPeriodStartDate", "bill/BillingPeriodEndDate",
   "product/ProductName", "lineItem/Operation", "lineItem/LineItemType",
   "lineItem/UsageType", "lineItem/UsageAmount", "pricing/unit",
   "lineItem/CurrencyCode", "lineItem/UnblendedCost", "lineItem/UsageAccountId"]

/-- A header row lacking the required lineItem/UsageAccountId column. -/
def hdrMissing : List String :=
  ["bill/BillingPeriodStartDate", "bill/BillingPeriodEndDate",
   "product/ProductName", "lineItem/Operation", "lineItem/LineItemType",
   "lineItem/UsageType", "lineItem/UsageAmount", "pricing/unit",
   "lineItem/CurrencyCode", "lineItem/UnblendedCost"]

/-- One well-formed data record matching hdrFull. -/
def recC : List String :=
  ["s", "e", "p", "o", "t", "u", "1", "h", "c", "2", "a"]

/-- The row recC inserts under hdrFull. -/
def rowC : Row :=
  { billStart := "s", billEnd := "e", productName := "p", operation := "o",
    unblendedCost := "2", usageAccountId := "a", lineItemType := "t",
    usageType := "u", usageAmount := "1", pricingUnit := "h",
    currencyCode := "c" }

/-- A two-part manifest whose second part will fail to download. -/
def manifestC : ReportManifest :=
  { assemblyId := "asm", compression := "GZIP", contentType := "text/csv",
    billingPeriodStart := "20240101T000000Z",
    billingPeriodEnd := "20240201T000000Z", bucket := "billing-bucket",
    reportKeys := ["k1", "k2"] }

/-- Remote parts: part k1 delivers one good record, part k2 fails with a
transfer error in mid-manifest. -/
def remoteC : String → PartData := fun k =>
  if k = "k1" then PartData.content [ReadResult.row hdrFull, ReadResult.row recC]
  else PartData.transferError "connection reset"

/-- Remote parts for the missing-column scenario: a single part whose header
lacks a required column and which carries one data record. -/
def remoteMissing : String → PartData := fun _ =>
  PartData.content [ReadResult.row hdrMissing,
    ReadResult.row ["s", "e", "p", "o", "t", "u", "1", "h", "c", "2"]]

/-- A single-part manifest for the missing-column scenario. -/
def manifestMissing : ReportManifest :=
  { assemblyId := "asm2", compression := "GZIP", contentType := "text/csv",
    billingPeriodStart := "20240101T000000Z",
    billingPeriodEnd := "20240201T000000Z", bucket := "billing-bucket",
    reportKeys := ["k1"] }

/-- A remote whose manifest object never changed: modification instant zero
and an undecodable body (never reached). -/
def remoteNM : RemoteEnv :=
  { manifestObj := fun _ => (0, Except.error "decode"), parts := remoteC }

/-- A scrape environment built on remoteNM with no past-due period and
succeeding collaborators. -/
def envW : ScrapeEnv :=
  { remote := remoteNM, listing := Except.ok [], pastDue := fun _ => false,
    saveRes := Except.ok (), computeRes := Except.ok () }

/-- An exporter state knowing one period with an empty watermark map. -/
def stW : ExporterState :=
  { periods := ["20240101-20240201"], reportLastModified := [] }

/-- The empty on-disk state. -/
def fsW : FSState := { db := [], files := [] }

/-- A remote whose manifest object changed (instant 5) and decodes to the
valid single-part manifest, whose only part carries just a header row. -/
def envOK : RemoteEnv :=
  { manifestObj := fun _ => (5, Except.ok manifestMissing),
    parts := fun _ => PartData.content [ReadResult.row hdrFull] }

/-- The exporter state after envOK successfully updates stW. -/
def stOK : ExporterState :=
  { periods := ["20240101-20240201"],
    reportLastModified := [("20240101-20240201", 5)] }

/-- The on-disk state after envOK successfully updates fsW. -/
def fsOK : FSState := { db := [], files := ["/repo/data/20240101-asm2-0.csv"] }

/-- A manifest that points at a bucket other than the configured one. -/
def manifestBad : ReportManifest :=
  { assemblyId := "asm3", compression := "GZIP", contentType := "text/csv",
    billingPeriodStart := "20240101T000000Z",
    billingPeriodEnd := "20240201T000000Z", bucket := "other-bucket",
    reportKeys := ["k1"] }

/-- A remote whose changed manifest object decodes to manifestBad. -/
def envBad : RemoteEnv :=
  { manifestObj := fun _ => (5, Except.ok manifestBad), parts := remoteC }

/-- An exporter state with two known periods and a watermark recorded for
the older one only. -/
def stP : ExporterState :=
  { periods := ["20240101-20240201", "20240201-20240301"],
    reportLastModified := [("20240101-20240201", 9)] }

/-! Helper lemmas shared by the claim theorems. -/

theorem mapLookup_insert_self (m : List (String × Nat)) (k : String) (v : Nat) :
    mapLookup (mapInsert m k v) k = some v := by
  simp [mapInsert, mapLookup]

theorem mapLookup_insert_other (m : List (String × Nat)) (k : String) (v : Nat)
    (q : String) (h : q ≠ k) : mapLookup (mapInsert m k v) q = mapLookup m q := by
  simp [mapInsert, mapLookup, Ne.symm h]

theorem goRange_map_snd {α : Type} : ∀ (n : Nat) (l : List α),
    (goRange n l).map Prod.snd = l
  | _, [] => rfl
  | n, _ :: xs => by simp [goRange, goRange_map_snd (n + 1) xs]

theorem mem_goRange_get {α : Type} : ∀ (n : Nat) (l : List α) (i : Nat) (a : α),
    (i, a) ∈ goRange n l → ∃ k, i = n + k ∧ l.get? k = some a := by
  intro n l
  induction l generalizing n with
  | nil => intro i a h; simp [goRange] at h
  | cons x xs ih =>
    intro i a h
    simp only [goRange, List.mem_cons] at h
    rcases h with h | h
    · refine ⟨0, ?_, ?_⟩
      · have := congrArg Prod.fst h; simpa using this
      · have := congrArg Prod.snd h; simpa using this.symm
    · obtain ⟨k, hk, hget⟩ := ih (n + 1) i a h
      exact ⟨k + 1, by omega, by simpa using hget⟩

theorem get_mem_goRange {α : Type} : ∀ (l : List α) (n k : Nat) (a : α),
    l.get? k = some a → (n + k, a) ∈ goRange n l := by
  intro l
  induction l with
  | nil => intro n k a h; simp at h
  | cons x xs ih =>
    intro n k a h
    cases k with
    | zero =>
      simp at h
      simp [goRange, h]
    | succ k =>
      simp only [List.get?_cons_succ] at h
      have := ih (n + 1) k a h
      simp only [goRange, List.mem_cons]
      right
      have harith : n + (k + 1) = n + 1 + k := by omega
      rw [harith]
      exact this

theorem updateReport_shape (config : Config) (env : RemoteEnv)
    (st : ExporterState) (fs : FSState) (p : String) :
    UpdateReport config env st fs p = UpdateResult.done false st fs ∨
    (∃ e fs1, UpdateReport config env st fs p = UpdateResult.failed e st fs1) ∨
    (∃ fs1, UpdateReport config env st fs p = UpdateResult.crashed st fs1) ∨
    (∃ fs1, UpdateReport config env st fs p =
        UpdateResult.done true
          { st with reportLastModified :=
              mapInsert st.reportLastModified p (env.manifestObj p).1 } fs1
      ∧ (mapLookup st.reportLastModified p).getD 0 < (env.manifestObj p).1) := by
  rcases hom : env.manifestObj p with ⟨objLM, body⟩
  by_cases hle : objLM ≤ (mapLookup st.reportLastModified p).getD 0
  · left
    simp [UpdateReport, hom, s3GetObjectConditional, hle, GetReportManifest]
  · cases body with
    | error e =>
      right; left
      exact ⟨e, fs, by
        simp [UpdateReport, hom, s3GetObjectConditional, hle, GetReportManifest]⟩
    | ok m =>
      by_cases h1 : m.contentType = "text/csv"
      case neg =>
        right; left
        refine ⟨"report manifest contains unknown content type: " ++ m.contentType, fs, ?_⟩
        simp [UpdateReport, hom, s3GetObjectConditional, hle, GetReportManifest, h1]
      by_cases h2 : m.bucket = config.bucketName
      case neg =>
        right; left
        refine ⟨"report manifest contains unexpected bucket name: " ++ m.bucket, fs, ?_⟩
        simp [UpdateReport, hom, s3GetObjectConditional, hle, GetReportManifest, h1, h2]
      by_cases h3 : m.reportKeys.isEmpty
      case pos =>
        right; left
        refine ⟨"report manifest contains no report keys", fs, ?_⟩
        simp [UpdateReport, hom, s3GetObjectConditional, hle, GetReportManifest, h1, h2, h3]
      cases hfr : FetchReport config env.parts m (ResetSqlite fs) with
      | ok fs2 =>
        right; right; right
        refine ⟨fs2, ?_, Nat.lt_of_not_le hle⟩
        simp [UpdateReport, hom, s3GetObjectConditional, hle, GetReportManifest,
              h1, h2, h3, hfr]
      | err e fs2 =>
        right; left
        refine ⟨e, fs2, ?_⟩
        simp [UpdateReport, hom, s3GetObjectConditional, hle, GetReportManifest,
              h1, h2, h3, hfr]
      | crash fs2 =>
        right; right; left
        refine ⟨fs2, ?_⟩
        simp [UpdateReport, hom, s3GetObjectConditional, hle, GetReportManifest,
              h1, h2, h3, hfr]

theorem updateReport_preserves (config : Config) (env : RemoteEnv)
    (st : ExporterState) (fs : FSState) (p : String) (b : Bool)
    (st1 : ExporterState) (fs1 : FSState)
    (h : UpdateReport config env st fs p = UpdateResult.done b st1 fs1) :
    st1.periods = st.periods ∧
    ∀ q, q ≠ p → mapLookup st1.reportLastModified q = mapLookup st.reportLastModified q := by
  rcases updateReport_shape config env st fs p with h0 | ⟨e, fs2, h0⟩ | ⟨fs2, h0⟩ | ⟨fs2, h0, hlt⟩
  · rw [h0] at h
    obtain ⟨_, h2, _⟩ := UpdateResult.done.inj h
    subst h2
    exact ⟨rfl, fun q _ => rfl⟩
  · rw [h0] at h; cases h
  · rw [h0] at h; cases h
  · rw [h0] at h
    obtain ⟨_, h2, _⟩ := UpdateResult.done.inj h
    subst h2
    exact ⟨rfl, fun q hq => mapLookup_insert_other _ _ _ _ hq⟩

theorem updateNM (st : ExporterState) (fs : FSState) (p : String) :
    UpdateReport cfgC remoteNM st fs p = UpdateResult.done false st fs := by
  simp [UpdateReport, remoteNM, s3GetObjectConditional, Nat.zero_le, GetReportManifest]

theorem fetchPartStep_committed {remote : String → PartData} {files : List String}
    {file key : String} {rows : List Row}
    (h : fetchPartStep remote files file key = PartStep.committed rows) :
    partBlock remote key = some rows := by
  by_cases hmem : file ∈ files
  · simp [fetchPartStep, hmem] at h
  · cases hrk : remote key with
    | transferError e => simp [fetchPartStep, hmem, hrk] at h
    | gzipError e => simp [fetchPartStep, hmem, hrk] at h
    | content reads =>
      cases reads with
      | nil => simp [fetchPartStep, hmem, hrk] at h
      | cons hd tl =>
        cases hd with
        | readErr e => simp [fetchPartStep, hmem, hrk] at h
        | row header =>
          cases hrr : runRows (mkCols header) tl with
          | none => simp [fetchPartStep, hmem, hrk, hrr] at h
          | some rows2 =>
            simp [fetchPartStep, hmem, hrk, hrr] at h
            simp [partBlock, hrk, hrr, h]

theorem fetchLoop_partwise (config : Config) (remote : String → PartData)
    (dayStr asm : String) :
    ∀ (keys : List (Nat × String)) (s s1 : FSState),
      ((∃ e, fetchLoop config remote dayStr asm keys s = FetchOutcome.err e s1) ∨
        fetchLoop config remote dayStr asm keys s = FetchOutcome.crash s1) →
      ∃ blocks : List (List Row), s1.db = s.db ++ blocks.flatten ∧
        ∀ b ∈ blocks, ∃ ik ∈ keys, partBlock remote ik.2 = some b := by
  intro keys
  induction keys with
  | nil =>
    intro s s1 h
    rcases h with ⟨e, h⟩ | h <;> simp [fetchLoop] at h
  | cons ik rest ih =>
    intro s s1 h
    rcases ik with ⟨i, key⟩
    cases hstep : fetchPartStep remote s.files (reportFileName config dayStr asm i) key with
    | skip =>
      rcases h with ⟨e, h⟩ | h
      · rw [fetchLoop, hstep] at h
        obtain ⟨blocks, hdb, hmem⟩ := ih s s1 (Or.inl ⟨e, h⟩)
        exact ⟨blocks, hdb, fun b hb =>
          let ⟨ik2, hik2, hpb⟩ := hmem b hb
          ⟨ik2, List.mem_cons_of_mem _ hik2, hpb⟩⟩
      · rw [fetchLoop, hstep] at h
        obtain ⟨blocks, hdb, hmem⟩ := ih s s1 (Or.inr h)
        exact ⟨blocks, hdb, fun b hb =>
          let ⟨ik2, hik2, hpb⟩ := hmem b hb
          ⟨ik2, List.mem_cons_of_mem _ hik2, hpb⟩⟩
    | committed rows =>
      have hrec :
          fetchLoop config remote dayStr asm ((i, key) :: rest) s =
            fetchLoop config remote dayStr asm rest
              { db := s.db ++ rows, files := s.files ++ [reportFileName config dayStr asm i] } := by
        rw [fetchLoop, hstep]
      have hpb := fetchPartStep_committed hstep
      have h2 : (∃ e, fetchLoop config remote dayStr asm rest
            { db := s.db ++ rows, files := s.files ++ [reportFileName config dayStr asm i] }
            = FetchOutcome.err e s1) ∨
          fetchLoop config remote dayStr asm rest
            { db := s.db ++ rows, files := s.files ++ [reportFileName config dayStr asm i] }
            = FetchOutcome.crash s1 := by
        rcases h with ⟨e, h⟩ | h
        · exact Or.inl ⟨e, by rw [← hrec]; exact h⟩
        · exact Or.inr (by rw [← hrec]; exact h)
      obtain ⟨blocks, hdb, hmem⟩ := ih _ s1 h2
      refine ⟨rows :: blocks, ?_, ?_⟩
      · simpa [List.append_assoc] using hdb
      · intro b hb
        rcases List.mem_cons.mp hb with hb | hb
        · exact ⟨(i, key), List.mem_cons_self _ _, by rw [hb]; exact hpb⟩
        · let ⟨ik2, hik2, hpb2⟩ := hmem b hb
          exact ⟨ik2, List.mem_cons_of_mem _ hik2, hpb2⟩
    | failed e2 =>
      rcases h with ⟨e, h⟩ | h
      · rw [fetchLoop, hstep] at h
        obtain ⟨_, h2⟩ := FetchOutcome.err.inj h
        subst h2
        exact ⟨[], by simp, by simp⟩
      · rw [fetchLoop, hstep] at h; cases h
    | crashed =>
      rcases h with ⟨e, h⟩ | h
      · rw [fetchLoop, hstep] at h; cases h
      · rw [fetchLoop, hstep] at h
        rw [FetchOutcome.crash.inj h]
        exact ⟨[], by simp, by simp⟩

theorem parsePeriods_error (pfx : String) :
    ∀ raws : List String,
      (∃ p ∈ raws, ∃ e, ParseBillingPeriod (dropTrail (dropLead p pfx) "/") = Except.error e) →
      ∃ e2, parsePeriods pfx raws = Except.error e2 := by
  intro raws
  induction raws with
  | nil => intro h; simp at h
  | cons r rest ih =>
    intro h
    cases hpr : ParseBillingPeriod (dropTrail (dropLead r pfx) "/") with
    | error e => exact ⟨e, by simp [parsePeriods, hpr]⟩
    | ok v =>
      have hrest : ∃ p ∈ rest, ∃ e, ParseBillingPeriod (dropTrail (dropLead p pfx) "/") = Except.error e := by
        rcases h with ⟨p, hp, e, he⟩
        rcases List.mem_cons.mp hp with hp | hp
        · rw [hp] at he; rw [he] at hpr; cases hpr
        · exact ⟨p, hp, e, he⟩
      obtain ⟨e2, he2⟩ := ih hrest
      exact ⟨e2, by simp [parsePeriods, hpr, he2]⟩

/-- C9: for every period string accepted by the billing-period parser,
converting the parsed BillingPeriod back to its canonical string form
yields the input exactly. -/
theorem billingPeriod_roundtrip (s : String) (p : BillingPeriod)
    (h : ParseBillingPeriod s = Except.ok p) : canonicalForm p = s := by
  simp only [ParseBillingPeriod] at h
  split at h
  · rw [← Except.ok.inj h]; rfl
  · cases h

set_option maxHeartbeats 1000000 in
theorem billingPeriod_roundtrip_witness :
    canonicalForm "20240101-20240201" = "20240101-20240201" :=
  billingPeriod_roundtrip "20240101-20240201" "20240101-20240201" (by decide)

theorem strLtb_asymm : ∀ x y : List Char, strLtb x y = true → strLtb y x = false := by
  intro x
  induction x with
  | nil => intro y h; cases y <;> simp [strLtb]
  | cons a as ih =>
    intro y h
    cases y with
    | nil => simp [strLtb] at h
    | cons b bs =>
      simp only [strLtb] at h ⊢
      by_cases h1 : chVal a < chVal b
      · have h2 : ¬ chVal b < chVal a := by omega
        simp [h1, h2]
      · by_cases h2 : chVal b < chVal a
        · simp [h1, h2] at h
        · simp only [h1, h2, if_false] at h ⊢
          simp [ih bs h]

theorem strLtb_trans : ∀ x y z : List Char,
    strLtb x y = true → strLtb y z = true → strLtb x z = true := by
  intro x
  induction x with
  | nil =>
    intro y z hxy hyz
    cases y with
    | nil => simp [strLtb] at hxy
    | cons b bs =>
      cases z with
      | nil => simp [strLtb] at hyz
      | cons c cs => simp [strLtb]
  | cons a as ih =>
    intro y z hxy hyz
    cases y with
    | nil => simp [strLtb] at hxy
    | cons b bs =>
      cases z with
      | nil => simp [strLtb] at hyz
      | cons c cs =>
        simp only [strLtb] at hxy hyz ⊢
        by_cases hab1 : chVal a < chVal b
        · by_cases hbc1 : chVal b < chVal c
          · have hac : chVal a < chVal c := by omega
            simp [hac]
          · simp only [hbc1, if_false] at hyz
            by_cases hbc2 : chVal c < chVal b
            · simp [hbc2] at hyz
            · have hac : chVal a < chVal c := by omega
              simp [hac]
        · simp only [hab1, if_false] at hxy
          by_cases hab2 : chVal b < chVal a
          · simp [hab2] at hxy
          · by_cases hbc1 : chVal b < chVal c
            · have hac : chVal a < chVal c := by omega
              simp [hac]
            · simp only [hbc1, if_false] at hyz
              by_cases hbc2 : chVal c < chVal b
              · simp [hbc2] at hyz
              · simp only [hab2, if_false] at hxy
                simp only [hbc2, if_false] at hyz
                have hac1 : ¬ chVal a < chVal c := by omega
                have hac2 : ¬ chVal c < chVal a := by omega
                simp [hac1, hac2, ih bs cs hxy hyz]

theorem strLtb_trichotomy : ∀ x y : List Char,
    strLtb x y = true ∨ strLtb y x = true ∨ x = y := by
  intro x
  induction x with
  | nil => intro y; cases y <;> simp [strLtb]
  | cons a as ih =>
    intro y
    cases y with
    | nil => right; left; simp [strLtb]
    | cons b bs =>
      by_cases h1 : chVal a < chVal b
      · left; simp [strLtb, h1]
      · by_cases h2 : chVal b < chVal a
        · right; left; simp [strLtb, h2]
        · have hval : a = b := by
            have hv : a.val.toNat = b.val.toNat := by
              simp only [chVal] at h1 h2; omega
            have : a.val = b.val := by
              apply UInt32.toNat.inj
              exact hv
            exact Char.ext this
          subst hval
          rcases ih bs with h | h | h
          · left; simp [strLtb, h1, h2, h]
          · right; left; simp [strLtb, h1, h2, h]
          · right; right; rw [h]

theorem strLeb_total (a b : String) : strLeb a b = true ∨ strLeb b a = true := by
  by_cases h : strLtb b.data a.data = true
  · right; simp [strLeb, strLtb_asymm _ _ h]
  · left; simp only [strLeb, Bool.not_eq_true']
    cases hf : strLtb b.data a.data
    · rfl
    · exact absurd hf h

theorem strLeb_trans (a b c : String) (hab : strLeb a b = true)
    (hbc : strLeb b c = true) : strLeb a c = true := by
  simp only [strLeb, Bool.not_eq_true'] at hab hbc ⊢
  by_contra hca
  have hca2 : strLtb c.data a.data = true := by
    cases hfc : strLtb c.data a.data
    · exact absurd hfc hca
    · rfl
  rcases strLtb_trichotomy c.data b.data with h | h | h
  · rw [h] at hbc; cases hbc
  · have h2 := strLtb_trans _ _ _ h hca2
    rw [h2] at hab; cases hab
  · rw [h] at hca2; rw [hca2] at hab; cases hab

/-- C4: period resolution parses every listed remote prefix (one malformed
prefix fails the whole resolution with an error and no period list), and on
success returns the parsed periods sorted ascending, a suffix of the full
sorted list (the last entries), truncated to at most 3; it is a function of
the listing, so two resolutions over the same listing agree. -/
theorem getBillingPeriods_spec (config : Config) (raws : List String) :
    ((∃ p ∈ raws, ∃ e, ParseBillingPeriod
          (dropTrail (dropLead p ("/" ++ config.reportName ++ "/")) "/") = Except.error e) →
        ∃ e2, GetBillingPeriods config (Except.ok raws) = Except.error e2) ∧
    (∀ ps, GetBillingPeriods config (Except.ok raws) = Except.ok ps →
        List.Sorted (fun a b : BillingPeriod => strLeb a b = true) ps ∧ ps.length ≤ 3 ∧
        ∃ parsed, parsePeriods ("/" ++ config.reportName ++ "/") raws = Except.ok parsed ∧
          ps <:+ sortPeriods parsed) ∧
    (∀ listing2, listing2 = Except.ok raws →
        GetBillingPeriods config listing2 = GetBillingPeriods config (Except.ok raws)) := by
  refine ⟨?_, ?_, ?_⟩
  · intro h
    obtain ⟨e2, he2⟩ := parsePeriods_error ("/" ++ config.reportName ++ "/") raws h
    exact ⟨e2, by simp [GetBillingPeriods, he2]⟩
  · intro ps hps
    cases hpp : parsePeriods ("/" ++ config.reportName ++ "/") raws with
    | error e => simp [GetBillingPeriods, hpp] at hps
    | ok parsed =>
      have hsorted : List.Sorted (fun a b : BillingPeriod => strLeb a b = true) (sortPeriods parsed) := by
        haveI : IsTotal String (fun a b => strLeb a b = true) := ⟨strLeb_total⟩
        haveI : IsTrans String (fun a b => strLeb a b = true) := ⟨strLeb_trans⟩
        exact List.sorted_insertionSort _ _
      simp only [GetBillingPeriods, hpp] at hps
      split at hps
      case isTrue hgt =>
        rw [← Except.ok.inj hps]
        refine ⟨hsorted.sublist (List.drop_sublist _ _), ?_, parsed, rfl, List.drop_suffix _ _⟩
        rw [List.length_drop]
        omega
      case isFalse hgt =>
        rw [← Except.ok.inj hps]
        exact ⟨hsorted, by omega, parsed, rfl, List.suffix_refl _⟩
  · intro listing2 h
    rw [h]

set_option maxHeartbeats 1000000 in
theorem getBillingPeriods_spec_witness :
    List.Sorted (fun a b : BillingPeriod => strLeb a b = true)
        ["20240201-20240301", "20240301-20240401", "20240401-20240501"] ∧
      (["20240201-20240301", "20240301-20240401", "20240401-20240501"] : List BillingPeriod).length ≤ 3 ∧
      ∃ parsed, parsePeriods ("/" ++ cfgC.reportName ++ "/")
          ["/rep/20240401-20240501/", "/rep/20240101-20240201/",
           "/rep/20240301-20240401/", "/rep/20240201-20240301/"] = Except.ok parsed ∧
        ["20240201-20240301", "20240301-20240401", "20240401-20240501"] <:+ sortPeriods parsed :=
  (getBillingPeriods_spec cfgC
    ["/rep/20240401-20240501/", "/rep/20240101-20240201/",
     "/rep/20240301-20240401/", "/rep/20240201-20240301/"]).2.1
    ["20240201-20240301", "20240301-20240401", "20240401-20240501"] (by decide)

/-- C3: when the modification instant of the remote manifest object is not
newer than the stored watermark, the conditional fetch returns absent with
the watermark untouched, and UpdateReport finishes without any download,
ingestion, or state mutation: it returns done false with both states exactly
unchanged. -/
theorem unchanged_manifest_absent (config : Config) (env : RemoteEnv)
    (st : ExporterState) (fs : FSState) (period : String)
    (h : (env.manifestObj period).1 ≤ (mapLookup st.reportLastModified period).getD 0) :
    GetReportManifest config
        (s3GetObjectConditional (env.manifestObj period).1 (env.manifestObj period).2
          ((mapLookup st.reportLastModified period).getD 0))
        ((mapLookup st.reportLastModified period).getD 0)
      = (Except.ok none, (mapLookup st.reportLastModified period).getD 0) ∧
    UpdateReport config env st fs period = UpdateResult.done false st fs := by
  constructor
  · simp [s3GetObjectConditional, h, GetReportManifest]
  · simp [UpdateReport, s3GetObjectConditional, h, GetReportManifest]

theorem unchanged_manifest_absent_witness :
    GetReportManifest cfgC
        (s3GetObjectConditional (remoteNM.manifestObj "20240101-20240201").1
          (remoteNM.manifestObj "20240101-20240201").2
          ((mapLookup stW.reportLastModified "20240101-20240201").getD 0))
        ((mapLookup stW.reportLastModified "20240101-20240201").getD 0)
      = (Except.ok none, (mapLookup stW.reportLastModified "20240101-20240201").getD 0) ∧
    UpdateReport cfgC remoteNM stW fsW "20240101-20240201"
      = UpdateResult.done false stW fsW :=
  unchanged_manifest_absent cfgC remoteNM stW fsW "20240101-20240201" (by decide)

/-- C10: with an empty known period list, a scrape performs no remote
listing, no conditional check, no ingestion, no state save and no metric
recomputation: the event trace is empty and both exporter states are
returned exactly unchanged (the gatherer only serves the previously
registered metric set). -/
theorem scrape_no_periods (config : Config) (env : ScrapeEnv)
    (st : ExporterState) (fs : FSState) (h : st.periods = []) :
    scrape config env st fs = ScrapeResult.ok st fs [] := by
  simp [scrape, h]

theorem scrape_no_periods_witness :
    scrape cfgC envW { periods := [], reportLastModified := [("20240101-20240201", 7)] } fsW
      = ScrapeResult.ok { periods := [], reportLastModified := [("20240101-20240201", 7)] } fsW [] :=
  scrape_no_periods cfgC envW
    { periods := [], reportLastModified := [("20240101-20240201", 7)] } fsW rfl

/-- C6: the watermark map entry of a period is mutated only by an
UpdateReport call that completes a successful ingestion (done true): on a
returned error or a crash the map is unchanged, on an unchanged manifest the
whole state is unchanged, and on success the entry becomes the new
modification instant, strictly above the previous value (getD 0), while all
other entries are untouched. -/
theorem watermark_update_spec (config : Config) (env : RemoteEnv)
    (st : ExporterState) (fs : FSState) (period : String) :
    (∀ e st1 fs1, UpdateReport config env st fs period = UpdateResult.failed e st1 fs1 →
        st1.reportLastModified = st.reportLastModified) ∧
    (∀ st1 fs1, UpdateReport config env st fs period = UpdateResult.crashed st1 fs1 →
        st1.reportLastModified = st.reportLastModified) ∧
    (∀ st1 fs1, UpdateReport config env st fs period = UpdateResult.done false st1 fs1 →
        st1 = st ∧ fs1 = fs) ∧
    (∀ st1 fs1, UpdateReport config env st fs period = UpdateResult.done true st1 fs1 →
        ∃ t, mapLookup st1.reportLastModified period = some t ∧
          (mapLookup st.reportLastModified period).getD 0 < t ∧
          ∀ q, q ≠ period →
            mapLookup st1.reportLastModified q = mapLookup st.reportLastModified q) := by
  rcases updateReport_shape config env st fs period with
    h0 | ⟨e0, fs0, h0⟩ | ⟨fs0, h0⟩ | ⟨fs0, h0, hlt⟩
  · refine ⟨?_, ?_, ?_, ?_⟩
    · intro e st1 fs1 h; rw [h0] at h; exact UpdateResult.noConfusion h
    · intro st1 fs1 h; rw [h0] at h; exact UpdateResult.noConfusion h
    · intro st1 fs1 h; rw [h0] at h
      obtain ⟨_, h2, h3⟩ := UpdateResult.done.inj h
      exact ⟨h2.symm, h3.symm⟩
    · intro st1 fs1 h; rw [h0] at h
      obtain ⟨hb, _, _⟩ := UpdateResult.done.inj h
      exact Bool.noConfusion hb
  · refine ⟨?_, ?_, ?_, ?_⟩
    · intro e st1 fs1 h; rw [h0] at h
      obtain ⟨_, h2, _⟩ := UpdateResult.failed.inj h
      rw [← h2]
    · intro st1 fs1 h; rw [h0] at h; exact UpdateResult.noConfusion h
    · intro st1 fs1 h; rw [h0] at h; exact UpdateResult.noConfusion h
    · intro st1 fs1 h; rw [h0] at h; exact UpdateResult.noConfusion h
  · refine ⟨?_, ?_, ?_, ?_⟩
    · intro e st1 fs1 h; rw [h0] at h; exact UpdateResult.noConfusion h
    · intro st1 fs1 h; rw [h0] at h
      obtain ⟨h2, _⟩ := UpdateResult.crashed.inj h
      rw [← h2]
    · intro st1 fs1 h; rw [h0] at h; exact UpdateResult.noConfusion h
    · intro st1 fs1 h; rw [h0] at h; exact UpdateResult.noConfusion h
  · refine ⟨?_, ?_, ?_, ?_⟩
    · intro e st1 fs1 h; rw [h0] at h; exact UpdateResult.noConfusion h
    · intro st1 fs1 h; rw [h0] at h; exact UpdateResult.noConfusion h
    · intro st1 fs1 h; rw [h0] at h
      obtain ⟨hb, _, _⟩ := UpdateResult.done.inj h
      exact Bool.noConfusion hb
    · intro st1 fs1 h; rw [h0] at h
      obtain ⟨_, h2, _⟩ := UpdateResult.done.inj h
      refine ⟨(env.manifestObj period).1, ?_, ?_, ?_⟩
      · rw [← h2]; exact mapLookup_insert_self _ _ _
      · exact hlt
      · intro q hq; rw [← h2]; exact mapLookup_insert_other _ _ _ _ hq

set_option maxHeartbeats 1000000 in
theorem watermark_update_spec_witness :
    ∃ t, mapLookup stOK.reportLastModified "20240101-20240201" = some t ∧
      (mapLookup stW.reportLastModified "20240101-20240201").getD 0 < t ∧
      ∀ q, q ≠ "20240101-20240201" →
        mapLookup stOK.reportLastModified q = mapLookup stW.reportLastModified q :=
  (watermark_update_spec cfgC envOK stW fsW "20240101-20240201").2.2.2 stOK fsOK (by decide)

/-- C5: for a successfully retrieved and decoded manifest (the conditional
get returned content which the JSON decoder accepted), the manifest fetch
returns an error, and no manifest, exactly when the content type is not
text/csv, the manifest bucket differs from the configured bucket, or the
part list is empty; and in each of those cases UpdateReport fails with both
the exporter state and the store exactly unchanged, so no ingestion of that
period takes place. -/
theorem manifest_validation_spec (config : Config) (env : RemoteEnv)
    (st : ExporterState) (fs : FSState) (period : String) (objLM : Nat)
    (m : ReportManifest)
    (hom : env.manifestObj period = (objLM, Except.ok m))
    (hnew : (mapLookup st.reportLastModified period).getD 0 < objLM) :
    ((∃ e, (GetReportManifest config (GetObjectResult.ok objLM (Except.ok m))
        ((mapLookup st.reportLastModified period).getD 0)).1 = Except.error e) ↔
      (m.contentType ≠ "text/csv" ∨ m.bucket ≠ config.bucketName ∨ m.reportKeys = [])) ∧
    ((m.contentType ≠ "text/csv" ∨ m.bucket ≠ config.bucketName ∨ m.reportKeys = []) →
      ∃ e, UpdateReport config env st fs period = UpdateResult.failed e st fs) := by
  have hle : ¬ objLM ≤ (mapLookup st.reportLastModified period).getD 0 := by omega
  constructor
  · constructor
    · rintro ⟨e, he⟩
      by_contra hno
      push_neg at hno
      obtain ⟨h1, h2, h3⟩ := hno
      have hkeys : m.reportKeys.isEmpty = false := by
        cases hk : m.reportKeys with
        | nil => exact absurd hk h3
        | cons a l => rfl
      simp [GetReportManifest, h1, h2, hkeys] at he
    · intro h
      by_cases h1 : m.contentType = "text/csv"
      · by_cases h2 : m.bucket = config.bucketName
        · have h3 : m.reportKeys = [] := by tauto
          exact ⟨"report manifest contains no report keys",
            by simp [GetReportManifest, h1, h2, h3]⟩
        · exact ⟨"report manifest contains unexpected bucket name: " ++ m.bucket,
            by simp [GetReportManifest, h1, h2]⟩
      · exact ⟨"report manifest contains unknown content type: " ++ m.contentType,
          by simp [GetReportManifest, h1]⟩
  · intro h
    by_cases h1 : m.contentType = "text/csv"
    · by_cases h2 : m.bucket = config.bucketName
      · have h3 : m.reportKeys = [] := by tauto
        exact ⟨"report manifest contains no report keys",
          by simp [UpdateReport, hom, s3GetObjectConditional, hle, GetReportManifest,
                   h1, h2, h3]⟩
      · exact ⟨"report manifest contains unexpected bucket name: " ++ m.bucket,
          by simp [UpdateReport, hom, s3GetObjectConditional, hle, GetReportManifest,
                   h1, h2]⟩
    · exact ⟨"report manifest contains unknown content type: " ++ m.contentType,
        by simp [UpdateReport, hom, s3GetObjectConditional, hle, GetReportManifest, h1]⟩

set_option maxHeartbeats 1000000 in
theorem manifest_validation_spec_witness :
    ∃ e, UpdateReport cfgC envBad stW fsW "20240101-20240201"
      = UpdateResult.failed e stW fsW :=
  (manifest_validation_spec cfgC envBad stW fsW "20240101-20240201" 5 manifestBad
    rfl (by decide)).2 (Or.inr (Or.inl (by decide)))

set_option maxHeartbeats 1000000 in
/-- C2: with a report part whose header row lacks the required column
lineItem/UsageAccountId and which carries one data record, FetchReport does
not return a MissingColumn error: the unchecked -1 of the column resolution
makes the record indexing panic, modelled as the crash outcome (the open
transaction is rolled back, so no rows of the part reach the store, but the
failure is a process crash rather than a returned ingestion error). -/
theorem missing_column_crash :
    FetchReport cfgC remoteMissing manifestMissing { db := [], files := [] }
      = FetchOutcome.crash { db := [], files := [] } := by decide

set_option maxHeartbeats 1000000 in
/-- C1 counterexample: ingestion of a two-part manifest where part 2 of 2
fails mid-manifest with a transfer error returns an error, yet leaves the
store holding the rows committed for part 1 — not the records it held before
the ingestion attempt began (here: empty). -/
theorem manifest_atomicity_counterexample :
    FetchReport cfgC remoteC manifestC { db := [], files := [] }
      = FetchOutcome.err "connection reset"
          { db := [rowC], files := ["/repo/data/20240101-asm-0.csv"] } ∧
    [rowC] ≠ ([] : List Row) := by
  constructor
  · decide
  · decide

/-- C1 amended: ingestion is atomic per part, not per manifest.  When
FetchReport fails or crashes, the store is the pre-call store extended by
the complete committed row blocks of whole parts listed in the manifest: the
failing part contributes no rows (its transaction rolls back), earlier
committed parts remain in full, and no partial block of any part is
visible — but the store is not restored to its pre-attempt contents. -/
theorem fetchReport_partwise_atomicity (config : Config)
    (remote : String → PartData) (manifest : ReportManifest) (s : FSState)
    (e : String) (s1 : FSState)
    (h : FetchReport config remote manifest s = FetchOutcome.err e s1 ∨
         FetchReport config remote manifest s = FetchOutcome.crash s1) :
    ∃ blocks : List (List Row), s1.db = s.db ++ blocks.flatten ∧
      ∀ b ∈ blocks, ∃ ik ∈ goRange 0 manifest.reportKeys,
        partBlock remote ik.2 = some b := by
  unfold FetchReport at h
  cases hps : parsePeriodStart manifest.billingPeriodStart with
  | error e2 =>
    rw [hps] at h
    rcases h with h | h
    · obtain ⟨_, h2⟩ := FetchOutcome.err.inj h
      rw [← h2]
      exact ⟨[], by simp, by simp⟩
    · exact FetchOutcome.noConfusion h
  | ok dayStr =>
    rw [hps] at h
    rcases h with h | h
    · exact fetchLoop_partwise config remote dayStr manifest.assemblyId _ s s1 (Or.inl ⟨e, h⟩)
    · exact fetchLoop_partwise config remote dayStr manifest.assemblyId _ s s1 (Or.inr h)

set_option maxHeartbeats 1000000 in
theorem fetchReport_partwise_atomicity_witness :
    ∃ blocks : List (List Row), [rowC] = ([] : List Row) ++ blocks.flatten ∧
      ∀ b ∈ blocks, ∃ ik ∈ goRange 0 manifestC.reportKeys,
        partBlock remoteC ik.2 = some b :=
  fetchReport_partwise_atomicity cfgC remoteC manifestC { db := [], files := [] }
    "connection reset" { db := [rowC], files := ["/repo/data/20240101-asm-0.csv"] }
    (Or.inl (by decide))

/-- C7: on a scrape whose conditional check reports a change and whose
ingest succeeds, the state save happens immediately after the check-and-
ingest and strictly before the metric recomputation, as witnessed by the
ordered event trace; on a scrape whose check reports no change, neither a
save nor a recomputation occurs.  Both branches are covered with and without
the past-due period refresh. -/
theorem scrape_save_before_compute (config : Config) (env : ScrapeEnv)
    (st : ExporterState) (fs : FSState) (p : String)
    (hL : st.periods.getLast? = some p) :
    (env.pastDue p = false →
      (∀ st1 fs1, UpdateReport config env.remote st fs p = UpdateResult.done true st1 fs1 →
        env.saveRes = Except.ok () → env.computeRes = Except.ok () →
        scrape config env st fs = ScrapeResult.ok st1 fs1
          [ScrapeEvent.checkPeriod p, ScrapeEvent.saveState, ScrapeEvent.computeMetrics]) ∧
      (∀ st1 fs1, UpdateReport config env.remote st fs p = UpdateResult.done false st1 fs1 →
        scrape config env st fs = ScrapeResult.ok st1 fs1 [ScrapeEvent.checkPeriod p])) ∧
    (env.pastDue p = true →
      ∀ ps q, GetBillingPeriods config env.listing = Except.ok ps → ps.getLast? = some q →
      (∀ st1 fs1,
        UpdateReport config env.remote { st with periods := ps } fs q
            = UpdateResult.done true st1 fs1 →
        env.saveRes = Except.ok () → env.computeRes = Except.ok () →
        scrape config env st fs = ScrapeResult.ok st1 fs1
          [ScrapeEvent.listRemote, ScrapeEvent.checkPeriod q,
           ScrapeEvent.saveState, ScrapeEvent.computeMetrics]) ∧
      (∀ st1 fs1,
        UpdateReport config env.remote { st with periods := ps } fs q
            = UpdateResult.done false st1 fs1 →
        scrape config env st fs = ScrapeResult.ok st1 fs1
          [ScrapeEvent.listRemote, ScrapeEvent.checkPeriod q])) := by
  constructor
  · intro hpd
    constructor
    · intro st1 fs1 hup hsave hcomp
      simp [scrape, hL, hpd, scrapeSync, hup, hsave, hcomp]
    · intro st1 fs1 hup
      simp [scrape, hL, hpd, scrapeSync, hup]
  · intro hpd ps q hlist hq
    constructor
    · intro st1 fs1 hup hsave hcomp
      simp [scrape, hL, hpd, hlist, hq, scrapeSync, hup, hsave, hcomp]
    · intro st1 fs1 hup
      simp [scrape, hL, hpd, hlist, hq, scrapeSync, hup]

theorem scrape_save_before_compute_witness :
    scrape cfgC envW stW fsW
      = ScrapeResult.ok stW fsW [ScrapeEvent.checkPeriod "20240101-20240201"] :=
  ((scrape_save_before_compute cfgC envW stW fsW "20240101-20240201" rfl).1 rfl).2
    stW fsW (updateNM stW fsW "20240101-20240201")

theorem prefetchLoop_spec (config : Config) (env : RemoteEnv) (total : Nat)
    (st0 : List (String × Nat))
    (hok : ∀ st2 fs2 p, ∃ b st3 fs3,
      UpdateReport config env st2 fs2 p = UpdateResult.done b st3 fs3) :
    ∀ (ps : List (Nat × String)) (st : ExporterState) (fs : FSState),
      (∀ ik ∈ ps, mapLookup st.reportLastModified ik.2 = mapLookup st0 ik.2) →
      (ps.map Prod.snd).Nodup →
      ∃ st1 fs1 att,
        prefetchLoop config env total ps st fs = PrefetchResult.ok st1 fs1 att ∧
        (∀ ik ∈ ps, ik.1 = total - 1 → ik.2 ∈ att) ∧
        (∀ q ∈ att, ∃ i, (i, q) ∈ ps ∧ (mapLookup st0 q = none ∨ i = total - 1)) := by
  intro ps
  induction ps with
  | nil =>
    intro st fs hagree hnd
    exact ⟨st, fs, [], rfl, by simp, by simp⟩
  | cons hd rest ih =>
    rcases hd with ⟨j, p⟩
    intro st fs hagree hnd
    have hagree_head : mapLookup st.reportLastModified p = mapLookup st0 p :=
      hagree (j, p) (List.mem_cons_self _ _)
    have hnd_rest : (rest.map Prod.snd).Nodup := by
      simp only [List.map_cons, List.nodup_cons] at hnd
      exact hnd.2
    have hp_not_rest : ∀ ik ∈ rest, ik.2 ≠ p := by
      intro ik hik hcontra
      simp only [List.map_cons, List.nodup_cons] at hnd
      exact hnd.1 (hcontra ▸ List.mem_map_of_mem Prod.snd hik)
    by_cases hc : (!(mapLookup st.reportLastModified p).isSome || (j == total - 1)) = true
    · obtain ⟨b, st3, fs3, hup⟩ := hok st fs p
      obtain ⟨hper, hother⟩ := updateReport_preserves config env st fs p b st3 fs3 hup
      have hagree_rest : ∀ ik ∈ rest,
          mapLookup st3.reportLastModified ik.2 = mapLookup st0 ik.2 := by
        intro ik hik
        rw [hother ik.2 (hp_not_rest ik hik)]
        exact hagree ik (List.mem_cons_of_mem _ hik)
      obtain ⟨st1, fs1, att, hloop, hlast, hatt⟩ := ih st3 fs3 hagree_rest hnd_rest
      refine ⟨st1, fs1, p :: att, ?_, ?_, ?_⟩
      · rw [prefetchLoop, if_pos hc]
        simp only [hup, hloop]
      · intro ik hik hlasti
        rcases List.mem_cons.mp hik with h | h
        · rw [h]; exact List.mem_cons_self _ _
        · exact List.mem_cons_of_mem _ (hlast ik h hlasti)
      · intro q hq
        rcases List.mem_cons.mp hq with h | h
        · subst h
          refine ⟨j, List.mem_cons_self _ _, ?_⟩
          cases hl : mapLookup st.reportLastModified q with
          | none =>
            left
            rw [← hagree_head]
            exact hl
          | some v =>
            right
            have hb : (j == total - 1) = true := by
              rw [hl] at hc
              simpa using hc
            simpa using hb
        · obtain ⟨i, hmem, hcond⟩ := hatt q h
          exact ⟨i, List.mem_cons_of_mem _ hmem, hcond⟩
    · obtain ⟨st1, fs1, att, hloop, hlast, hatt⟩ :=
        ih st fs (fun ik hik => hagree ik (List.mem_cons_of_mem _ hik)) hnd_rest
      refine ⟨st1, fs1, att, ?_, ?_, ?_⟩
      · rw [prefetchLoop, if_neg hc, hloop]
      · intro ik hik hlasti
        rcases List.mem_cons.mp hik with h | h
        · exfalso
          subst h
          simp only at hlasti
          apply hc
          rw [hlasti]
          simp
        · exact hlast ik h hlasti
      · intro q hq
        obtain ⟨i, hmem, hcond⟩ := hatt q hq
        exact ⟨i, List.mem_cons_of_mem _ hmem, hcond⟩

/-- C8: at startup, under a remote for which every update call completes
(no failures) and with distinct resolved periods, Prefetch attempts an
update for the most recent period unconditionally, and attempts one for any
other period only when no watermark is yet recorded for it. -/
theorem prefetch_startup_spec (config : Config) (env : RemoteEnv)
    (st : ExporterState) (fs : FSState) (periods : List String)
    (hnd : periods.Nodup)
    (hok : ∀ st2 fs2 p, ∃ b st3 fs3,
      UpdateReport config env st2 fs2 p = UpdateResult.done b st3 fs3) :
    ∃ st1 fs1 att, Prefetch config env st fs periods = PrefetchResult.ok st1 fs1 att ∧
      (∀ lastP, periods.getLast? = some lastP → lastP ∈ att) ∧
      (∀ q ∈ att, q ∈ periods ∧
        (mapLookup st.reportLastModified q = none ∨ periods.getLast? = some q)) := by
  have hnd2 : ((goRange 0 periods).map Prod.snd).Nodup := by
    rw [goRange_map_snd]; exact hnd
  obtain ⟨st1, fs1, att, hloop, hlast, hatt⟩ :=
    prefetchLoop_spec config env periods.length st.reportLastModified hok
      (goRange 0 periods) st fs (fun ik hik => rfl) hnd2
  refine ⟨st1, fs1, att, hloop, ?_, ?_⟩
  · intro lastP hlp
    have hget : periods.get? (periods.length - 1) = some lastP := by
      rw [List.get?_eq_getElem?, ← List.getLast?_eq_getElem?]
      exact hlp
    have hmem := get_mem_goRange periods 0 (periods.length - 1) lastP hget
    exact hlast (periods.length - 1, lastP) (by simpa using hmem) rfl
  · intro q hq
    obtain ⟨i, hmem, hcond⟩ := hatt q hq
    obtain ⟨k, hik, hget⟩ := mem_goRange_get 0 periods i q hmem
    constructor
    · exact List.get?_mem hget
    · rcases hcond with h | h
      · left; exact h
      · right
        have hk : k = periods.length - 1 := by omega
        rw [List.getLast?_eq_getElem?, ← List.get?_eq_getElem?, ← hk]
        exact hget

theorem prefetch_startup_spec_witness :
    ∃ st1 fs1 att,
      Prefetch cfgC remoteNM stP fsW ["20240101-20240201", "20240201-20240301"]
        = PrefetchResult.ok st1 fs1 att ∧
      (∀ lastP, (["20240101-20240201", "20240201-20240301"] : List String).getLast?
          = some lastP → lastP ∈ att) ∧
      (∀ q ∈ att, q ∈ ["20240101-20240201", "20240201-20240301"] ∧
        (mapLookup stP.reportLastModified q = none ∨
          (["20240101-20240201", "20240201-20240301"] : List String).getLast? = some q)) :=
  prefetch_startup_spec cfgC remoteNM stP fsW ["20240101-20240201", "20240201-20240301"]
    (by decide) (fun st2 fs2 p => ⟨false, st2, fs2, updateNM st2 fs2 p⟩)
